import Mathlib

/-!
Verification of the finch control plane against its specification.

The definitions below are a shallow embedding of the Go sources:
bytes are `Nat` values reduced modulo 256 where the Go code works on
`uint8`/`byte`, fallible operations return `Except`/`Option`, and the
stateful record store is modelled by explicit state passing.
-/

namespace Finch

/-! ### Base64 (RFC 4648 standard alphabet, with padding)

Model of Go's `encoding/base64.StdEncoding` as used by
`internal/aes/aes.go`.  The decoder accepts padding only at the very end
of the input and rejects any input whose length is not a multiple of 4,
matching `StdEncoding.DecodeString` (newline stripping is not modelled;
none of the inputs in this development contain newlines). -/

def b64Alphabet : List Char :=
  "ABCDEFGHIJKLMNOPQRSTUVWXYZabcdefghijklmnopqrstuvwxyz0123456789+/".toList

def b64EncChar (v : Nat) : Char := b64Alphabet.getD v 'A'

def b64DecChar (c : Char) : Option Nat :=
  let i := b64Alphabet.indexOf c
  if i < 64 then some i else none

def b64EncodeChunks : List Nat → List Char
  | b0 :: b1 :: b2 :: rest =>
      b64EncChar (b0 / 4) :: b64EncChar ((b0 % 4) * 16 + b1 / 16) ::
      b64EncChar ((b1 % 16) * 4 + b2 / 64) :: b64EncChar (b2 % 64) ::
      b64EncodeChunks rest
  | [b0, b1] => [b64EncChar (b0 / 4), b64EncChar ((b0 % 4) * 16 + b1 / 16),
      b64EncChar ((b1 % 16) * 4), '=']
  | [b0] => [b64EncChar (b0 / 4), b64EncChar ((b0 % 4) * 16), '=', '=']
  | [] => []

def b64DecodeChunks : List Char → Option (List Nat)
  | [] => some []
  | c0 :: c1 :: c2 :: c3 :: rest =>
      (b64DecChar c0).bind fun v0 =>
      (b64DecChar c1).bind fun v1 =>
      if c2 = '=' then
        if c3 = '=' ∧ rest = [] then some [v0 * 4 + v1 / 16] else none
      else
        (b64DecChar c2).bind fun v2 =>
        if c3 = '=' then
          if rest = [] then some [v0 * 4 + v1 / 16, (v1 % 16) * 16 + v2 / 4]
          else none
        else
          (b64DecChar c3).bind fun v3 =>
          (b64DecodeChunks rest).map fun tail =>
            (v0 * 4 + v1 / 16) :: ((v1 % 16) * 16 + v2 / 4) ::
            ((v2 % 4) * 64 + v3) :: tail
  | _ => none

def b64Encode (bs : List Nat) : String := String.mk (b64EncodeChunks bs)

def b64Decode (s : String) : Option (List Nat) := b64DecodeChunks s.toList

/-! ### AES-256 block cipher (FIPS 197)

`internal/aes/aes.go` calls Go's `crypto/aes`, which implements the
FIPS 197 cipher; the cipher is embedded here directly.  A state is a
flat list of 16 bytes in the column-major order used by the standard
(`state[r + 4*c]`). -/

def sbox : List Nat := [
  99, 124, 119, 123, 242, 107, 111, 197, 48, 1, 103, 43, 254, 215, 171, 118,
  202, 130, 201, 125, 250, 89, 71, 240, 173, 212, 162, 175, 156, 164, 114,
  192, 183, 253, 147, 38, 54, 63, 247, 204, 52, 165, 229, 241, 113, 216, 49,
  21, 4, 199, 35, 195, 24, 150, 5, 154, 7, 18, 128, 226, 235, 39, 178, 117, 9,
  131, 44, 26, 27, 110, 90, 160, 82, 59, 214, 179, 41, 227, 47, 132, 83, 209,
  0, 237, 32, 252, 177, 91, 106, 203, 190, 57, 74, 76, 88, 207, 208, 239, 170,
  251, 67, 77, 51, 133, 69, 249, 2, 127, 80, 60, 159, 168, 81, 163, 64, 143,
  146, 157, 56, 245, 188, 182, 218, 33, 16, 255, 243, 210, 205, 12, 19, 236,
  95, 151, 68, 23, 196, 167, 126, 61, 100, 93, 25, 115, 96, 129, 79, 220, 34,
  42, 144, 136, 70, 238, 184, 20, 222, 94, 11, 219, 224, 50, 58, 10, 73, 6,
  36, 92, 194, 211, 172, 98, 145, 149, 228, 121, 231, 200, 55, 109, 141, 213,
  78, 169, 108, 86, 244, 234, 101, 122, 174, 8, 186, 120, 37, 46, 28, 166,
  180, 198, 232, 221, 116, 31, 75, 189, 139, 138, 112, 62, 181, 102, 72, 3,
  246, 14, 97, 53, 87, 185, 134, 193, 29, 158, 225, 248, 152, 17, 105, 217,
  142, 148, 155, 30, 135, 233, 206, 85, 40, 223, 140, 161, 137, 13, 191, 230,
  66, 104, 65, 153, 45, 15, 176, 84, 187, 22]

def subByte (b : Nat) : Nat := sbox.getD (b % 256) 0

/-- Byte-level xor (`uint8` semantics, hence the reduction modulo 256). -/
def xorB (a b : Nat) : Nat := (a ^^^ b) % 256

/-- Multiplication by x in GF(2^8). -/
def xtime (b : Nat) : Nat :=
  if 128 ≤ b % 256 then (((b % 256) * 2) ^^^ 27) % 256 else ((b % 256) * 2) % 256

def subWord (w : List Nat) : List Nat := w.map subByte

def rotWord : List Nat → List Nat
  | [] => []
  | a :: rest => rest ++ [a]

def xorWord (a b : List Nat) : List Nat := List.zipWith xorB a b

def rcon : List Nat := [1, 2, 4, 8, 16, 32, 64]

def keyChunk (key : List Nat) (i : Nat) : List Nat :=
  [key.getD (4 * i) 0, key.getD (4 * i + 1) 0,
   key.getD (4 * i + 2) 0, key.getD (4 * i + 3) 0]

/-- AES-256 key expansion (Nk = 8, Nr = 14): the 60 four-byte words. -/
def expandKeyWords (key : List Nat) : List (List Nat) :=
  (List.range 52).foldl (fun w j =>
    let i := j + 8
    let temp := w.getD (i - 1) [0, 0, 0, 0]
    let temp :=
      if i % 8 = 0 then
        xorWord (subWord (rotWord temp)) [rcon.getD (i / 8 - 1) 0, 0, 0, 0]
      else if i % 8 = 4 then subWord temp
      else temp
    w ++ [xorWord (w.getD (i - 8) [0, 0, 0, 0]) temp])
    ((List.range 8).map (keyChunk key))

def roundKey (w : List (List Nat)) (r : Nat) : List Nat :=
  (List.range 16).map fun i => (w.getD (4 * r + i / 4) [0, 0, 0, 0]).getD (i % 4) 0

def subBytesOp (s : List Nat) : List Nat := s.map subByte

/-- Source index of flat position `i = r + 4*c` after ShiftRows:
row `r` is rotated left by `r`. -/
def shiftIdx (i : Nat) : Nat := (i % 4) + 4 * (((i / 4) + (i % 4)) % 4)

def shiftRowsOp (s : List Nat) : List Nat :=
  (List.range 16).map fun i => s.getD (shiftIdx i) 0

def mixColumnsOp (s : List Nat) : List Nat :=
  (List.range 16).map fun i =>
    let c := i / 4
    let a0 := s.getD (4 * c) 0
    let a1 := s.getD (4 * c + 1) 0
    let a2 := s.getD (4 * c + 2) 0
    let a3 := s.getD (4 * c + 3) 0
    match i % 4 with
    | 0 => xorB (xorB (xtime a0) (xorB (xtime a1) a1)) (xorB a2 a3)
    | 1 => xorB (xorB a0 (xtime a1)) (xorB (xorB (xtime a2) a2) a3)
    | 2 => xorB (xorB a0 a1) (xorB (xtime a2) (xorB (xtime a3) a3))
    | _ => xorB (xorB (xorB (xtime a0) a0) a1) (xorB a2 (xtime a3))

def addRoundKey (s rk : List Nat) : List Nat := List.zipWith xorB s rk

def aesEncryptBlock (w : List (List Nat)) (input : List Nat) : List Nat :=
  let s0 := addRoundKey input (roundKey w 0)
  let s := (List.range 13).foldl
    (fun s r => addRoundKey (mixColumnsOp (shiftRowsOp (subBytesOp s))) (roundKey w (r + 1)))
    s0
  addRoundKey (shiftRowsOp (subBytesOp s)) (roundKey w 14)

/-! ### CTR mode (`crypto/cipher.NewCTR`)

The counter starts at the IV and is incremented as a 16-byte big-endian
integer; the keystream is the concatenation of the encrypted counter
blocks, and `XORKeyStream` xors it into the data byte by byte. -/

def bytesToNatBE (l : List Nat) : Nat := l.foldl (fun acc b => acc * 256 + b % 256) 0

def natToBytesBE (n : Nat) (x : Nat) : List Nat :=
  (List.range n).map fun i => x / 256 ^ (n - 1 - i) % 256

def incCtr (ctr : List Nat) : List Nat :=
  natToBytesBE 16 ((bytesToNatBE ctr + 1) % 256 ^ 16)

def ctrBlocks (w : List (List Nat)) (ctr : List Nat) : Nat → List Nat
  | 0 => []
  | n + 1 => aesEncryptBlock w ctr ++ ctrBlocks w (incCtr ctr) n

def keystream (w : List (List Nat)) (iv : List Nat) (n : Nat) : List Nat :=
  (ctrBlocks w iv ((n + 15) / 16)).take n

def xorKeyStream (ks data : List Nat) : List Nat := List.zipWith xorB ks data

/-! ### `internal/aes/aes.go`

`Encrypt`/`Decrypt`/`decodeB64Key`.  The random IV drawn from
`rand.Reader` in `Encrypt` is passed as an explicit argument; a Go
string is modelled as its list of bytes.  `aes.NewCipher` cannot fail
here because `decodeB64Key` has already pinned the key to 32 bytes. -/

def decodeB64Key (b64key : String) : Except String (List Nat) :=
  match b64Decode b64key with
  | none => Except.error "illegal base64 data"
  | some key =>
      if key.length ≠ 32 then Except.error "AES key must be 32 bytes"
      else Except.ok key

def Encrypt (b64key : String) (plaintext : List Nat) (iv : List Nat) :
    Except String String :=
  match decodeB64Key b64key with
  | Except.error e => Except.error e
  | Except.ok key =>
      let w := expandKeyWords key
      let ciphertext := xorKeyStream (keystream w iv plaintext.length) plaintext
      Except.ok (b64Encode (iv ++ ciphertext))

def Decrypt (b64key : String) (encoded : String) : Except String (List Nat) :=
  match decodeB64Key b64key with
  | Except.error e => Except.error e
  | Except.ok key =>
      match b64Decode encoded with
      | none => Except.error "illegal base64 data"
      | some data =>
          if data.length < 16 then Except.error "ciphertext too short"
          else
            let iv := data.take 16
            let ciphertext := data.drop 16
            let w := expandKeyWords key
            Except.ok (xorKeyStream (keystream w iv ciphertext.length) ciphertext)

/-! ### URL parsing (Go `net/url`)

Model of `url.Parse` restricted to what the controller consults: scheme,
host, path, query and fragment.  Percent-decoding, userinfo validation,
port validation and the `ForceQuery` flag are not modelled; none of the
URIs handled by the controller depend on them. -/

def isCtl (c : Char) : Bool := decide (c.toNat < 32 ∨ c.toNat = 127)

def isAlphaChar (c : Char) : Bool :=
  decide ((97 ≤ c.toNat ∧ c.toNat ≤ 122) ∨ (65 ≤ c.toNat ∧ c.toNat ≤ 90))

def isDigitChar (c : Char) : Bool := decide (48 ≤ c.toNat ∧ c.toNat ≤ 57)

def toLowerChar (c : Char) : Char :=
  if 65 ≤ c.toNat ∧ c.toNat ≤ 90 then Char.ofNat (c.toNat + 32) else c

structure GoURL where
  scheme : String := ""
  opq : String := ""
  host : String := ""
  path : String := ""
  query : String := ""
  fragment : String := ""
  omitHost : Bool := false
deriving DecidableEq, Repr

inductive SchemeRes where
  | err
  | noScheme
  | found (scheme rest : List Char)
deriving DecidableEq, Repr

/-- Go `getScheme`: an error only for a leading colon; a character that is
not valid in a scheme means the URL simply has no scheme. -/
def getSchemeAux : List Char → List Char → SchemeRes
  | _, [] => SchemeRes.noScheme
  | acc, c :: rest =>
      if c = ':' then
        if acc = [] then SchemeRes.err else SchemeRes.found acc.reverse rest
      else if isAlphaChar c then getSchemeAux (c :: acc) rest
      else if isDigitChar c || c = '+' || c = '-' || c = '.' then
        if acc = [] then SchemeRes.noScheme else getSchemeAux (c :: acc) rest
      else SchemeRes.noScheme

def getScheme (l : List Char) : SchemeRes := getSchemeAux [] l

/-- Split at the first occurrence of `sep` (Go `strings.Cut`): `none` as the
second component means the separator was absent. -/
def splitFirstOpt (sep : Char) : List Char → List Char × Option (List Char)
  | [] => ([], none)
  | c :: rest =>
      if c = sep then ([], some rest)
      else
        let p := splitFirstOpt sep rest
        (c :: p.1, p.2)

/-- Authority/path boundary (`split(rest, '/', false)` keeps the slash). -/
def takeUntilSlash (l : List Char) : List Char := l.takeWhile fun c => ¬ c = '/'

def dropUntilSlash (l : List Char) : List Char := l.dropWhile fun c => ¬ c = '/'

/-- Host of an authority: everything after the last `@` (userinfo dropped). -/
def authorityHost (auth : List Char) : List Char :=
  if auth.contains '@' then
    ((splitFirstOpt '@' auth.reverse).1).reverse
  else auth

def goUrlParse (s : String) : Option GoURL :=
  let l := s.toList
  if l.any isCtl then none
  else
    match getScheme l with
    | SchemeRes.err => none
    | res =>
        let sr : String × List Char :=
          match res with
          | SchemeRes.found sch r => (String.mk (sch.map toLowerChar), r)
          | _ => ("", l)
        let scheme := sr.1
        let (rest0, fragO) := splitFirstOpt '#' sr.2
        let fragment := String.mk (fragO.getD [])
        let (rest1, queryO) := splitFirstOpt '?' rest0
        let query := String.mk (queryO.getD [])
        if ¬ rest1.head? = some '/' then
          if scheme ≠ "" then
            some { scheme, opq := String.mk rest1, query, fragment }
          else
            -- schemeless relative reference: a colon in the first path
            -- segment is an error in Go
            if ((splitFirstOpt '/' rest1).1).contains ':' then none
            else some { path := String.mk rest1, query, fragment }
        else
          if rest1.take 2 = ['/', '/'] ∧
              (scheme ≠ "" ∨ ¬ rest1.take 3 = ['/', '/', '/']) then
            let auth := takeUntilSlash (rest1.drop 2)
            let rest2 := dropUntilSlash (rest1.drop 2)
            some { scheme, host := String.mk (authorityHost auth),
                   path := String.mk rest2, query, fragment }
          else
            some { scheme, path := String.mk rest1, query, fragment,
                   omitHost := scheme ≠ "" }

/-- Go `URL.String` (RFC 3986 recomposition) over the modelled fields. -/
def urlString (u : GoURL) : String :=
  (if u.scheme ≠ "" then u.scheme ++ ":" else "") ++
  (if u.opq ≠ "" then u.opq
   else
     (if (u.scheme ≠ "" ∨ u.host ≠ "") ∧ ¬ (u.omitHost ∧ u.host = "") ∧
         (u.host ≠ "" ∨ u.path ≠ "") then "//" ++ u.host else "") ++
     (if u.path ≠ "" ∧ ¬ u.path.toList.take 1 = ['/'] ∧ u.host ≠ "" then "/" else "") ++
     u.path) ++
  (if u.query ≠ "" then "?" ++ u.query else "") ++
  (if u.fragment ≠ "" then "#" ++ u.fragment else "")

/-! ### Record store (`internal/model`)

The gorm-backed store is modelled as a list of agent records plus an
auto-increment counter; `db.Where(example).First` matches the non-zero
fields of the example record (the controller only ever filters by
hostname or resource id), `db.Save` replaces by primary key, `db.Delete`
removes by primary key.  The in-process event fan-out of `model.go` is a
list of bounded channels with non-blocking sends. -/

structure MAgent where
  id : Nat := 0
  active : Bool := true
  hostname : String := ""
  logSources : List String := []
  metrics : Bool := false
  metricsTargets : List String := []
  profiles : Bool := false
  password : String := ""
  passwordHash : String := ""
  registeredAt : Nat := 0
  resourceId : String := ""
  labels : List String := []
  username : String := ""
deriving DecidableEq, Repr

structure EventChan where
  cap : Nat
  buf : List String
deriving DecidableEq, Repr

structure ModelState where
  agents : List MAgent := []
  nextId : Nat := 1
  eventChan : EventChan := ⟨100, []⟩
  subscribers : List EventChan := []
deriving DecidableEq, Repr

/-- Non-blocking send: a full channel drops the event. -/
def chanSend (ch : EventChan) (t : String) : EventChan :=
  if ch.buf.length < ch.cap then { ch with buf := ch.buf ++ [t] } else ch

def notifyAgentEvent (st : ModelState) (t : String) : ModelState :=
  { st with eventChan := chanSend st.eventChan t,
            subscribers := st.subscribers.map fun ch => chanSend ch t }

def modelSubscribeAgentEvents (st : ModelState) : ModelState :=
  { st with subscribers := st.subscribers ++ [⟨10, []⟩] }

/-- gorm zero-value field matching for the string and key fields the
controller filters by (boolean, slice and timestamp fields are never used
as filters by the controller). -/
def matchesFilter (f a : MAgent) : Bool :=
  decide ((f.id = 0 ∨ a.id = f.id) ∧
    (f.hostname = "" ∨ a.hostname = f.hostname) ∧
    (f.resourceId = "" ∨ a.resourceId = f.resourceId) ∧
    (f.username = "" ∨ a.username = f.username) ∧
    (f.password = "" ∨ a.password = f.password) ∧
    (f.passwordHash = "" ∨ a.passwordHash = f.passwordHash))

inductive CtrlError where
  | hostnameEmpty
  | missingLogSource
  | noValidLogSource
  | agentNotFound
  | agentAlreadyExists
  | storeUnique
  | invalidToken
  | aes (msg : String)
deriving DecidableEq, Repr

def modelGetAgent (st : ModelState) (f : MAgent) : Except CtrlError MAgent :=
  match st.agents.find? (matchesFilter f) with
  | none => Except.error CtrlError.agentNotFound
  | some a => Except.ok a

def modelCreateAgent (st : ModelState) (a : MAgent) :
    Except CtrlError MAgent × ModelState :=
  if st.agents.any (fun b => b.hostname = a.hostname ∨ b.resourceId = a.resourceId) then
    (Except.error CtrlError.storeUnique, st)
  else
    let a' := { a with id := st.nextId }
    (Except.ok a',
     notifyAgentEvent { st with agents := st.agents ++ [a'], nextId := st.nextId + 1 }
       "create")

def modelUpdateAgent (st : ModelState) (a : MAgent) : ModelState :=
  notifyAgentEvent
    { st with agents := st.agents.map fun b => if b.id = a.id then a else b } "update"

def modelDeleteAgent (st : ModelState) (a : MAgent) : ModelState :=
  notifyAgentEvent
    { st with agents := st.agents.filter fun b => ¬ b.id = a.id } "delete"

def modelListAgents (st : ModelState) : List MAgent := st.agents

/-- `Model.GetAgent` as a state transformer: it reads the store and returns
with the state it was given (no event is published). -/
def modelGetAgentOp (st : ModelState) (f : MAgent) :
    Except CtrlError MAgent × ModelState :=
  (modelGetAgent st f, st)

/-- `Model.ListAgents` as a state transformer: it reads the store and returns
with the state it was given (no event is published). -/
def modelListAgentsOp (st : ModelState) : List MAgent × ModelState :=
  (modelListAgents st, st)

/-! ### Controller (`internal/controller`) -/

structure Config where
  id : String := ""
  secret : String := ""
  hostname : String := ""
  library : String := ""
deriving DecidableEq, Repr

/-- `controller.Agent`: the wire-level registration/update input. -/
structure CAgent where
  hostname : String := ""
  labels : List String := []
  logSources : List String := []
  metrics : Bool := false
  metricsTargets : List String := []
  profiles : Bool := false
deriving DecidableEq, Repr

/-- The random values drawn inside `marshalNewAgent`/`__createCredentials`
(`rand.Text` for username and password, `uuid.New`, and the AES IV of the
password encryption), passed explicitly. -/
structure Entropy where
  username : String := ""
  password : String := ""
  uuid : String := ""
  iv : List Nat := List.replicate 16 0
deriving DecidableEq, Repr

/-- Modelled from the spec: bcrypt.GenerateFromPassword is an external
one-way salted hash; it is modelled as an injective symbolic tag and never
fails at the default cost. -/
def bcryptHash (pw : String) : String := "bcrypt$" ++ pw

def strBytes (s : String) : List Nat := s.toList.map Char.toNat

def validLogSource (s : String) : Option String :=
  match goUrlParse s with
  | none => none
  | some u =>
      if u.scheme = "journal" ∨ u.scheme = "docker" ∨ u.scheme = "file" then
        some (urlString u)
      else none

def parseLogSources (data : CAgent) : Except CtrlError (List String) :=
  if data.logSources = [] then Except.error CtrlError.missingLogSource
  else
    let effective := data.logSources.filterMap validLogSource
    if effective = [] then Except.error CtrlError.noValidLogSource
    else Except.ok effective

def validMetricsTarget (s : String) : Option String :=
  match goUrlParse s with
  | none => none
  | some u =>
      if (u.scheme = "http" ∨ u.scheme = "https") ∧ u.host ≠ "" then
        some (urlString u)
      else none

def parseMetricsTargets (data : CAgent) : List String :=
  data.metricsTargets.filterMap validMetricsTarget

def createCredentials (cfg : Config) (ent : Entropy) :
    Except CtrlError (String × String) :=
  let password := ent.password
  let hash := bcryptHash password
  match Encrypt cfg.secret (strBytes password) ent.iv with
  | Except.error e => Except.error (CtrlError.aes e)
  | Except.ok enc => Except.ok (enc, hash)

def marshalNewAgent (cfg : Config) (ent : Entropy) (data : CAgent) :
    Except CtrlError MAgent :=
  if data.hostname = "" then Except.error CtrlError.hostnameEmpty
  else
    match parseLogSources data with
    | Except.error e => Except.error e
    | Except.ok effectiveLogSources =>
        let effectiveMetricsTargets := parseMetricsTargets data
        match createCredentials cfg ent with
        | Except.error e => Except.error e
        | Except.ok (password, hash) =>
            Except.ok
              { hostname := data.hostname,
                logSources := effectiveLogSources,
                metrics := data.metrics,
                metricsTargets := effectiveMetricsTargets,
                profiles := data.profiles,
                labels := data.labels,
                resourceId := "rid:finch:" ++ cfg.id ++ ":agent:" ++ ent.uuid,
                username := ent.username,
                password := password,
                passwordHash := hash }

def marshalUpdateAgent (existing : MAgent) (data : CAgent) : Except CtrlError MAgent :=
  match parseLogSources data with
  | Except.error e => Except.error e
  | Except.ok eff =>
      Except.ok
        { existing with
            labels := data.labels, logSources := eff,
            metrics := data.metrics, metricsTargets := parseMetricsTargets data,
            profiles := data.profiles }

def RegisterAgent (cfg : Config) (ent : Entropy) (st : ModelState) (data : CAgent) :
    Except CtrlError String × ModelState :=
  match marshalNewAgent cfg ent data with
  | Except.error e => (Except.error e, st)
  | Except.ok agent =>
      match modelGetAgent st { hostname := data.hostname } with
      | Except.ok _ => (Except.error CtrlError.agentAlreadyExists, st)
      | Except.error CtrlError.agentNotFound =>
          match modelCreateAgent st agent with
          | (Except.error e, st') => (Except.error e, st')
          | (Except.ok a, st') => (Except.ok a.resourceId, st')
      | Except.error e => (Except.error e, st)

def UpdateAgent (st : ModelState) (rid : String) (data : CAgent) :
    Except CtrlError Unit × ModelState :=
  match modelGetAgent st { resourceId := rid } with
  | Except.error _ => (Except.error CtrlError.agentNotFound, st)
  | Except.ok agent =>
      match marshalUpdateAgent agent data with
      | Except.error e => (Except.error e, st)
      | Except.ok updated => (Except.ok (), modelUpdateAgent st updated)

def DeregisterAgent (st : ModelState) (rid : String) :
    Except CtrlError Unit × ModelState :=
  match modelGetAgent st { resourceId := rid } with
  | Except.error _ => (Except.error CtrlError.agentNotFound, st)
  | Except.ok agent => (Except.ok (), modelDeleteAgent st agent)

/-! ### Tokens (`internal/controller/token.go`, `dashboard.go`)

The `golang-jwt` library is modelled symbolically: an HMAC signature is
the record of the signing secret and the signed header/claims (a
collision-free idealisation of HMAC-SHA2), time is in unix seconds, and
`jwt.Parse` accepts a token iff the advertised algorithm is an HMAC
variant, the signature matches the shared secret, and the token is not
expired. -/

structure JwtSig where
  secret : String
  alg : String
  iss : String
  sub : String
  rid : Option String
  iat : Int
  exp : Int
deriving DecidableEq, Repr

structure JwtToken where
  alg : String
  iss : String
  sub : String
  rid : Option String
  iat : Int
  exp : Int
  sig : JwtSig
deriving DecidableEq, Repr

def hmacSign (secret : String) (t : JwtToken) : JwtSig :=
  ⟨secret, t.alg, t.iss, t.sub, t.rid, t.iat, t.exp⟩

def mkToken (secret alg iss sub : String) (rid : Option String) (iat expv : Int) :
    JwtToken :=
  { alg, iss, sub, rid, iat, exp := expv,
    sig := ⟨secret, alg, iss, sub, rid, iat, expv⟩ }

def isHmacAlg (a : String) : Bool := decide (a = "HS256" ∨ a = "HS384" ∨ a = "HS512")

def jwtParseValid (secret : String) (t : JwtToken) (now : Int) : Bool :=
  isHmacAlg t.alg && decide (t.sig = hmacSign secret t) && decide (now ≤ t.exp)

structure DashboardTokenResponse where
  token : JwtToken
  expiresAt : Int
  dashboardURL : String
deriving DecidableEq, Repr

def GetDashboardToken (cfg : Config) (now : Int) (sessionTimeout : Int) :
    DashboardTokenResponse :=
  let sessionTimeout := if sessionTimeout ≤ 0 then 1800 else sessionTimeout
  let expiresAt := now + sessionTimeout
  { token := mkToken cfg.secret "HS256" "finch" "dashboard" none now expiresAt,
    expiresAt, dashboardURL := "https://" ++ cfg.hostname ++ "/login" }

def ValidateDashboardToken (cfg : Config) (t : JwtToken) (now : Int) :
    Except CtrlError Unit :=
  if ¬ jwtParseValid cfg.secret t now then Except.error CtrlError.invalidToken
  else if t.iss ≠ "finch" ∨ t.sub ≠ "dashboard" then Except.error CtrlError.invalidToken
  else Except.ok ()

/-- 365 days, in seconds (the Go constant is `365 * 24 * time.Hour`). -/
def defaultTokenExpiration : Int := 365 * 24 * 60 * 60

def GenerateAgentToken (cfg : Config) (resourceId : String) (expiration : Int)
    (now : Int) : JwtToken × Int :=
  let expiration := if expiration = 0 then defaultTokenExpiration else expiration
  let expiresAt := now + expiration
  (mkToken cfg.secret "HS256" "finch" "agent" (some resourceId) now expiresAt,
   expiresAt)

/-! ### Credentials file (`internal/controller/agent_credentials.go`)

The filesystem is a single abstract cell holding the published
`loki-users.yaml` content; the advisory-lock attempts of
`flock.TryLock` are an explicit list of outcomes supplied by the
environment.  The fully written temporary file only ever reaches the
target through the single `os.Rename` step, modelled as one atomic
state update. -/

def lockAttempts : Nat := 25

def lockRetryIntervalMs : Nat := 100

structure FsState where
  lokiUsersFile : Option String := none
deriving DecidableEq, Repr

def lokiUsersRender (agents : List MAgent) : String :=
  "---\nhttp:\n  middlewares:\n    loki-auth:\n      basicAuth:\n        users:" ++
  (if agents.isEmpty then "\n          - \"\""
   else String.join (agents.map fun a =>
     "\n          - \"" ++ a.username ++ ":" ++ a.passwordHash ++ "\"")) ++ "\n"

def generateCredentialsFile (st : ModelState) (lockResults : List Bool)
    (fs : FsState) : Except String Unit × FsState :=
  let agents := modelListAgents st
  let content := lokiUsersRender agents
  let locked := (lockResults.take lockAttempts).any id
  if locked then (Except.ok (), { fs with lokiUsersFile := some content })
  else (Except.error "failed to acquire file lock", fs)

/-! ### Alloy configuration synthesis (`generateAlloyConfig`) -/

structure MetricsTargetEntry where
  address : String
  metricsPath : String
deriving DecidableEq, Repr

structure AlloyLogSources where
  journal : Bool := false
  docker : Bool := false
  files : List String := []
deriving DecidableEq, Repr

structure AlloyConfigData where
  serviceName : String
  hostname : String
  token : JwtToken
  tokenExpiry : Int
  resourceId : String
  logSources : AlloyLogSources
  metrics : Bool
  metricsTargets : List MetricsTargetEntry
  profiles : Bool
  labels : List String
deriving DecidableEq, Repr

/-- `strings.SplitN(label, "=", 2)` rendering of one external label. -/
def renderLabel (label : String) : String :=
  let p := splitFirstOpt '=' label.toList
  match p.2 with
  | some v => "\"" ++ String.mk p.1 ++ "\" = \"" ++ String.mk v ++ "\""
  | none => "\"" ++ label ++ "\" = \"true\""

def classifyLogSources (sources : List String) : AlloyLogSources :=
  sources.foldl (fun acc source =>
    match goUrlParse source with
    | none => acc
    | some u =>
        if u.scheme = "journal" then { acc with journal := true }
        else if u.scheme = "docker" then { acc with docker := true }
        else if u.scheme = "file" then
          { acc with files := acc.files ++
            ["\x7b__path__ = \"" ++ u.path ++ "\"\x7d"] }
        else acc) ⟨false, false, []⟩

/-- The per-target entry of the metrics loop in `generateAlloyConfig`: the
stored target is re-parsed, and its host and path become the scrape
address/metrics path (unparsable entries are skipped with `continue`). -/
def alloyEntry (source : String) : Option MetricsTargetEntry :=
  match goUrlParse source with
  | none => none
  | some u => some ⟨u.host, u.path⟩

def generateAlloyConfig (cfg : Config) (agent : MAgent) (now : Int) :
    AlloyConfigData :=
  let te := GenerateAgentToken cfg agent.resourceId 0 now
  { serviceName := cfg.hostname,
    hostname := agent.hostname,
    token := te.1,
    tokenExpiry := te.2,
    resourceId := agent.resourceId,
    logSources := classifyLogSources agent.logSources,
    metrics := agent.metrics,
    metricsTargets := agent.metricsTargets.filterMap alloyEntry,
    profiles := agent.profiles,
    labels := agent.labels.map renderLabel }

/-! ## Lemmas: base64 -/

theorem b64DecChar_encChar : ∀ v, v < 64 → b64DecChar (b64EncChar v) = some v := by
  decide

theorem b64EncChar_ne_pad : ∀ v, v < 64 → b64EncChar v ≠ '=' := by
  decide

theorem b64_roundtrip : ∀ (bs : List Nat), (∀ b ∈ bs, b < 256) →
    b64DecodeChunks (b64EncodeChunks bs) = some bs
  | [], _ => rfl
  | [b0], h => by
      have h0 := h b0 (by simp)
      have e0 := b64DecChar_encChar (b0 / 4) (by omega)
      have e1 := b64DecChar_encChar ((b0 % 4) * 16) (by omega)
      simp [b64EncodeChunks, b64DecodeChunks, e0, e1]
      omega
  | [b0, b1], h => by
      have h0 := h b0 (by simp)
      have h1 := h b1 (by simp)
      have e0 := b64DecChar_encChar (b0 / 4) (by omega)
      have e1 := b64DecChar_encChar ((b0 % 4) * 16 + b1 / 16) (by omega)
      have e2 := b64DecChar_encChar ((b1 % 16) * 4) (by omega)
      have n2 := b64EncChar_ne_pad ((b1 % 16) * 4) (by omega)
      simp [b64EncodeChunks, b64DecodeChunks, e0, e1, e2, n2]
      omega
  | b0 :: b1 :: b2 :: rest, h => by
      have h0 := h b0 (by simp)
      have h1 := h b1 (by simp)
      have h2 := h b2 (by simp)
      have ih := b64_roundtrip rest (fun b hb => h b (by simp [hb]))
      have e0 := b64DecChar_encChar (b0 / 4) (by omega)
      have e1 := b64DecChar_encChar ((b0 % 4) * 16 + b1 / 16) (by omega)
      have e2 := b64DecChar_encChar ((b1 % 16) * 4 + b2 / 64) (by omega)
      have e3 := b64DecChar_encChar (b2 % 64) (by omega)
      have n2 := b64EncChar_ne_pad ((b1 % 16) * 4 + b2 / 64) (by omega)
      have n3 := b64EncChar_ne_pad (b2 % 64) (by omega)
      simp [b64EncodeChunks, b64DecodeChunks, e0, e1, e2, e3, n2, n3, ih]
      omega

/-! ## Lemmas: CTR keystream -/

theorem mem_zipWith_xorB : ∀ {l1 l2 : List Nat} {x : Nat},
    x ∈ List.zipWith xorB l1 l2 → x < 256
  | a :: l1, b :: l2, x, hx => by
      rcases List.mem_cons.mp hx with h | h
      · subst h; exact Nat.mod_lt _ (by omega)
      · exact mem_zipWith_xorB h

theorem aesEncryptBlock_mem_lt {w : List (List Nat)} {input : List Nat} {x : Nat}
    (hx : x ∈ aesEncryptBlock w input) : x < 256 := by
  simp only [aesEncryptBlock, addRoundKey] at hx
  exact mem_zipWith_xorB hx

theorem length_aesEncryptBlock (w : List (List Nat)) (input : List Nat) :
    (aesEncryptBlock w input).length = 16 := by
  simp [aesEncryptBlock, addRoundKey, roundKey, shiftRowsOp]

theorem length_ctrBlocks (w : List (List Nat)) : ∀ (n : Nat) (ctr : List Nat),
    (ctrBlocks w ctr n).length = 16 * n
  | 0, _ => rfl
  | n + 1, ctr => by
      simp [ctrBlocks, length_aesEncryptBlock, length_ctrBlocks w n (incCtr ctr)]
      omega

theorem ctrBlocks_mem_lt {w : List (List Nat)} :
    ∀ {n : Nat} {ctr : List Nat} {x : Nat}, x ∈ ctrBlocks w ctr n → x < 256
  | n + 1, ctr, x, hx => by
      rcases List.mem_append.mp hx with h | h
      · exact aesEncryptBlock_mem_lt h
      · exact ctrBlocks_mem_lt h

theorem length_keystream (w : List (List Nat)) (iv : List Nat) (n : Nat) :
    (keystream w iv n).length = n := by
  simp [keystream, length_ctrBlocks]
  omega

theorem keystream_mem_lt {w : List (List Nat)} {iv : List Nat} {n : Nat} {x : Nat}
    (hx : x ∈ keystream w iv n) : x < 256 :=
  ctrBlocks_mem_lt (List.take_subset _ _ hx)

theorem xorB_invol (k b : Nat) (hk : k < 256) (hb : b < 256) :
    xorB k (xorB k b) = b := by
  unfold xorB
  have h1 : k ^^^ b < 256 := Nat.xor_lt_two_pow (n := 8) hk hb
  rw [Nat.mod_eq_of_lt h1, ← Nat.xor_assoc, Nat.xor_self, Nat.zero_xor,
    Nat.mod_eq_of_lt hb]

theorem xorKeyStream_invol : ∀ (ks data : List Nat), data.length ≤ ks.length →
    (∀ k ∈ ks, k < 256) → (∀ b ∈ data, b < 256) →
    xorKeyStream ks (xorKeyStream ks data) = data
  | _, [], _, _, _ => by simp [xorKeyStream]
  | k :: ks, b :: data, hlen, hks, hd => by
      simp only [xorKeyStream, List.zipWith_cons_cons]
      rw [show List.zipWith xorB ks (List.zipWith xorB ks data) = data from
        xorKeyStream_invol ks data (by simpa using hlen)
          (fun x hx => hks x (List.mem_cons_of_mem _ hx))
          (fun x hx => hd x (List.mem_cons_of_mem _ hx))]
      rw [xorB_invol k b (hks k (List.mem_cons_self _ _)) (hd b (List.mem_cons_self _ _))]

/-! ## Claim C1 -/

/-- Claim C1: for every key that is a valid base64 encoding of a 32-byte value
and every plaintext, `Decrypt(key, Encrypt(key, plaintext))` succeeds and
returns exactly the original plaintext (the fresh random IV of `Encrypt` is
passed explicitly). -/
theorem C1_encrypt_decrypt_roundtrip (b64key : String) (key plaintext iv : List Nat)
    (hkey : decodeB64Key b64key = Except.ok key)
    (hiv : iv.length = 16) (hivb : ∀ b ∈ iv, b < 256)
    (hpt : ∀ b ∈ plaintext, b < 256) :
    ∃ c, Encrypt b64key plaintext iv = Except.ok c ∧
      Decrypt b64key c = Except.ok plaintext := by
  have hksl : (keystream (expandKeyWords key) iv plaintext.length).length
      = plaintext.length := length_keystream ..
  set w := expandKeyWords key with hw
  set ks := keystream w iv plaintext.length with hks
  set ct := xorKeyStream ks plaintext with hct
  have hctl : ct.length = plaintext.length := by
    simp [hct, xorKeyStream, hksl]
  have hctb : ∀ b ∈ ct, b < 256 := fun b hb => mem_zipWith_xorB hb
  refine ⟨b64Encode (iv ++ ct), ?_, ?_⟩
  · unfold Encrypt
    rw [hkey]
  · have hrt : b64Decode (b64Encode (iv ++ ct)) = some (iv ++ ct) := by
      show b64DecodeChunks (String.mk (b64EncodeChunks (iv ++ ct))).toList = _
      have hmk : (String.mk (b64EncodeChunks (iv ++ ct))).toList
          = b64EncodeChunks (iv ++ ct) := rfl
      rw [hmk]
      exact b64_roundtrip _ (by
        intro b hb
        rcases List.mem_append.mp hb with h | h
        · exact hivb b h
        · exact hctb b h)
    have hnlt : ¬ (iv ++ ct).length < 16 := by
      simp only [List.length_append, hiv]; omega
    have htake : (iv ++ ct).take 16 = iv := by
      rw [← hiv]; exact List.take_left iv ct
    have hdrop : (iv ++ ct).drop 16 = ct := by
      rw [← hiv]; exact List.drop_left iv ct
    simp only [Decrypt, hkey, hrt, hnlt, if_false, htake, hdrop, hctl]
    rw [show keystream (expandKeyWords key) iv plaintext.length = ks from rfl]
    rw [hct]
    rw [xorKeyStream_invol ks plaintext (le_of_eq hksl.symm)
      (fun k hk => keystream_mem_lt hk) hpt]

/-- Witness for C1 at a concrete key, plaintext and IV. -/
theorem C1_encrypt_decrypt_roundtrip_witness :
    ∃ c, Encrypt "AAAAAAAAAAAAAAAAAAAAAAAAAAAAAAAAAAAAAAAAAAA=" [104, 105] (List.replicate 16 0)
        = Except.ok c ∧
      Decrypt "AAAAAAAAAAAAAAAAAAAAAAAAAAAAAAAAAAAAAAAAAAA=" c = Except.ok [104, 105] :=
  C1_encrypt_decrypt_roundtrip _ (List.replicate 32 0) _ _ (by rfl) (by decide)
    (by decide) (by decide)

/-! ## Claim C8 -/

/-- Claim C8: a key that is not valid base64 makes both `Encrypt` and `Decrypt`
fail with the decoding error; a key whose decoded length is not 32 bytes makes
both fail with the key-size error; and `Decrypt` fails with the
ciphertext-too-short error whenever the decoded payload is smaller than one IV
block (16 bytes). -/
theorem C8_key_and_ciphertext_errors (b64key enc : String) (key pt iv : List Nat) :
    (b64Decode b64key = none →
      Encrypt b64key pt iv = Except.error "illegal base64 data" ∧
      Decrypt b64key enc = Except.error "illegal base64 data") ∧
    (b64Decode b64key = some key → key.length ≠ 32 →
      Encrypt b64key pt iv = Except.error "AES key must be 32 bytes" ∧
      Decrypt b64key enc = Except.error "AES key must be 32 bytes") ∧
    (∀ data, decodeB64Key b64key = Except.ok key → b64Decode enc = some data →
      data.length < 16 → Decrypt b64key enc = Except.error "ciphertext too short") := by
  refine ⟨fun h => ?_, fun h hlen => ?_, fun data hk henc hshort => ?_⟩
  · constructor <;> simp only [Encrypt, Decrypt, decodeB64Key, h]
  · constructor <;> simp only [Encrypt, Decrypt, decodeB64Key, h, if_pos hlen]
  · simp only [Decrypt, hk, henc, if_pos hshort]

/-- Witness for C8: a non-base64 key, a base64 key decoding to 3 bytes, and a
valid key with a 3-byte decoded payload. -/
theorem C8_key_and_ciphertext_errors_witness :
    (Encrypt "!" [0] [0] = Except.error "illegal base64 data" ∧
      Decrypt "!" "AAAA" = Except.error "illegal base64 data") ∧
    (Encrypt "AAAA" [0] [0] = Except.error "AES key must be 32 bytes" ∧
      Decrypt "AAAA" "AAAA" = Except.error "AES key must be 32 bytes") ∧
    Decrypt "AAAAAAAAAAAAAAAAAAAAAAAAAAAAAAAAAAAAAAAAAAA=" "AAAA"
      = Except.error "ciphertext too short" :=
  ⟨(C8_key_and_ciphertext_errors "!" "AAAA" [] [0] [0]).1 (by rfl),
   (C8_key_and_ciphertext_errors "AAAA" "AAAA" [0, 0, 0] [0] [0]).2.1 (by rfl) (by decide),
   (C8_key_and_ciphertext_errors "AAAAAAAAAAAAAAAAAAAAAAAAAAAAAAAAAAAAAAAAAAA=" "AAAA"
      (List.replicate 32 0) [0] [0]).2.2 [0, 0, 0] (by rfl) (by rfl) (by decide)⟩

/-! ## Lemmas: record store -/

theorem modelCreateAgent_error_state {st : ModelState} {a : MAgent} {e : CtrlError}
    {st' : ModelState} (h : modelCreateAgent st a = (Except.error e, st')) :
    st' = st := by
  unfold modelCreateAgent at h
  split at h
  · exact (congrArg Prod.snd h).symm
  · exact absurd (congrArg Prod.fst h) (by simp)

/-! ## Claim C2 -/

/-- Claim C2: `RegisterAgent` fails with the hostname-empty error on an empty
hostname, with the missing-log-source error on an empty log-source list, with
the no-valid-log-source error when every supplied log source is filtered out,
and with the already-exists conflict error (distinct from not-found) when an
agent with the same hostname is already stored; in every failure case the
store is unchanged. -/
theorem C2_register_validation (cfg : Config) (ent : Entropy) (st : ModelState)
    (data : CAgent) :
    (data.hostname = "" →
      RegisterAgent cfg ent st data = (Except.error CtrlError.hostnameEmpty, st)) ∧
    (data.hostname ≠ "" → data.logSources = [] →
      RegisterAgent cfg ent st data = (Except.error CtrlError.missingLogSource, st)) ∧
    (data.hostname ≠ "" → data.logSources ≠ [] →
      (∀ s ∈ data.logSources, validLogSource s = none) →
      RegisterAgent cfg ent st data = (Except.error CtrlError.noValidLogSource, st)) ∧
    (∀ agent, marshalNewAgent cfg ent data = Except.ok agent →
      (∃ a ∈ st.agents, a.hostname = data.hostname) →
      RegisterAgent cfg ent st data = (Except.error CtrlError.agentAlreadyExists, st)) ∧
    (∀ e st', RegisterAgent cfg ent st data = (Except.error e, st') → st' = st) ∧
    CtrlError.agentAlreadyExists ≠ CtrlError.agentNotFound := by
  refine ⟨fun h1 => ?_, fun h1 h2 => ?_, fun h1 h2 h3 => ?_,
    fun agent hm hex => ?_, fun e st' h => ?_, by decide⟩
  · simp [RegisterAgent, marshalNewAgent, h1]
  · simp [RegisterAgent, marshalNewAgent, parseLogSources, h1, h2]
  · simp [RegisterAgent, marshalNewAgent, parseLogSources, h1, h2,
      List.filterMap_eq_nil_iff.mpr h3]
  · obtain ⟨a, ha, hh⟩ := hex
    have hfind : (st.agents.find? (matchesFilter { hostname := data.hostname })).isSome := by
      apply List.find?_isSome.mpr
      exact ⟨a, ha, by simp [matchesFilter, hh]⟩
    obtain ⟨b, hb⟩ := Option.isSome_iff_exists.mp hfind
    simp [RegisterAgent, hm, modelGetAgent, hb]
  · unfold RegisterAgent at h
    rcases hm : marshalNewAgent cfg ent data with e1 | agent <;> rw [hm] at h
    · exact (congrArg Prod.snd h).symm
    · rcases hg : modelGetAgent st { hostname := data.hostname } with e2 | b <;>
        rw [hg] at h
      · cases e2 <;>
          first
          | exact (congrArg Prod.snd h).symm
          | · rcases hc : modelCreateAgent st agent with ⟨r, st2⟩
              simp only [] at h
              rw [hc] at h
              rcases r with e3 | a3
              · have h2 : st' = st2 := (congrArg Prod.snd h).symm
                rw [h2]
                exact modelCreateAgent_error_state hc
              · exact absurd (congrArg Prod.fst h) (by simp)
      · exact (congrArg Prod.snd h).symm

/-- Configuration used by concrete witnesses: its secret is a valid
base64-encoded 32-byte key. -/
def witnessCfg : Config :=
  { id := "inst", secret := "AAAAAAAAAAAAAAAAAAAAAAAAAAAAAAAAAAAAAAAAAAA=",
    hostname := "manager.example.com" }

/-- A store already holding one agent with hostname `h`. -/
def witnessSt : ModelState :=
  { agents := [{ id := 1, hostname := "h", resourceId := "rid:finch:inst:agent:u0" }],
    nextId := 2, subscribers := [⟨10, []⟩] }

/-- Witness for C2 at concrete inputs: empty hostname, no log sources, only an
invalid log source, and a duplicate hostname. -/
theorem C2_register_validation_witness :
    (RegisterAgent witnessCfg { } witnessSt { logSources := ["journal://"] }
      = (Except.error CtrlError.hostnameEmpty, witnessSt)) ∧
    (RegisterAgent witnessCfg { } witnessSt { hostname := "h2" }
      = (Except.error CtrlError.missingLogSource, witnessSt)) ∧
    (RegisterAgent witnessCfg { } witnessSt
        { hostname := "h2", logSources := ["invalid://x"] }
      = (Except.error CtrlError.noValidLogSource, witnessSt)) ∧
    (RegisterAgent witnessCfg { } witnessSt
        { hostname := "h", logSources := ["journal://"] }
      = (Except.error CtrlError.agentAlreadyExists, witnessSt)) := by
  refine ⟨?_, ?_, ?_, ?_⟩
  · exact (C2_register_validation witnessCfg { } witnessSt _).1 rfl
  · exact (C2_register_validation witnessCfg { } witnessSt _).2.1 (by decide) rfl
  · exact (C2_register_validation witnessCfg { } witnessSt _).2.2.1 (by decide)
      (by decide) (by decide)
  · exact (C2_register_validation witnessCfg { } witnessSt _).2.2.2.1 _ rfl
      ⟨{ id := 1, hostname := "h", resourceId := "rid:finch:inst:agent:u0" },
        by simp [witnessSt], rfl⟩

/-! ## Claim C9 -/

/-- Claim C9: `UpdateAgent` is atomic on error — whenever it returns an error
(resource id not found, empty log-source list, or no valid log source after
filtering), the store is unchanged. -/
theorem C9_update_atomic_on_error (st : ModelState) (rid : String) (data : CAgent)
    (e : CtrlError) (st' : ModelState)
    (h : UpdateAgent st rid data = (Except.error e, st')) : st' = st := by
  unfold UpdateAgent at h
  rcases hg : modelGetAgent st { resourceId := rid } with e1 | a <;> rw [hg] at h
  · exact (congrArg Prod.snd h).symm
  · simp only [] at h
    rcases hm : marshalUpdateAgent a data with e2 | u <;> rw [hm] at h
    · exact (congrArg Prod.snd h).symm
    · exact absurd (congrArg Prod.fst h) (by simp)

/-- Witness for C9: updating an unknown resource id, and updating a stored
agent with an empty log-source list, both leave the store unchanged. -/
theorem C9_update_atomic_on_error_witness :
    witnessSt = witnessSt ∧ witnessSt = witnessSt :=
  ⟨C9_update_atomic_on_error witnessSt "rid:none" { logSources := ["journal://"] }
      CtrlError.agentNotFound witnessSt (by rfl),
   C9_update_atomic_on_error witnessSt "rid:finch:inst:agent:u0" { hostname := "h" }
      CtrlError.missingLogSource witnessSt (by rfl)⟩

/-! ## Claim C3 -/

/-- Claim C3: a successful `UpdateAgent` replaces only labels, log sources,
the metrics and profiles flags, and metrics targets of the stored record;
hostname, resource id, username, encrypted password and password hash (and id,
active, registeredAt) are unchanged. -/
theorem C3_update_frame (st st' : ModelState) (rid : String) (data : CAgent)
    (a : MAgent)
    (hget : modelGetAgent st { resourceId := rid } = Except.ok a)
    (hupd : UpdateAgent st rid data = (Except.ok (), st')) :
    ∃ updated, marshalUpdateAgent a data = Except.ok updated ∧
      st'.agents = st.agents.map (fun b => if b.id = updated.id then updated else b) ∧
      updated.id = a.id ∧
      updated.hostname = a.hostname ∧
      updated.resourceId = a.resourceId ∧
      updated.username = a.username ∧
      updated.password = a.password ∧
      updated.passwordHash = a.passwordHash ∧
      updated.active = a.active ∧
      updated.registeredAt = a.registeredAt ∧
      updated.labels = data.labels ∧
      updated.metrics = data.metrics ∧
      updated.profiles = data.profiles ∧
      updated.metricsTargets = parseMetricsTargets data ∧
      ∃ eff, parseLogSources data = Except.ok eff ∧ updated.logSources = eff := by
  unfold UpdateAgent at hupd
  rw [hget] at hupd
  simp only [] at hupd
  rcases hm : marshalUpdateAgent a data with e | u <;> rw [hm] at hupd
  · exact absurd (congrArg Prod.fst hupd) (by simp)
  · have hst : st' = modelUpdateAgent st u := (congrArg Prod.snd hupd).symm
    have hmu := hm
    unfold marshalUpdateAgent at hmu
    rcases hp : parseLogSources data with e2 | eff <;> rw [hp] at hmu
    · exact absurd hmu (by simp)
    · simp only [Except.ok.injEq] at hmu
      refine ⟨u, rfl, ?_, ?_⟩
      · rw [hst]
        simp [modelUpdateAgent, notifyAgentEvent]
      · rw [← hmu]
        refine ⟨rfl, rfl, rfl, rfl, rfl, rfl, rfl, rfl, rfl, rfl, rfl, rfl,
          eff, rfl, rfl⟩

/-- Witness for C3: updating the stored agent `h` flips its profiles flag but
keeps hostname, resource id and credentials. -/
theorem C3_update_frame_witness :
    ∃ updated,
      marshalUpdateAgent { id := 1, hostname := "h", resourceId := "rid:finch:inst:agent:u0" }
          { hostname := "ignored", logSources := ["journal://"], profiles := true }
        = Except.ok updated ∧
      (UpdateAgent witnessSt "rid:finch:inst:agent:u0"
          { hostname := "ignored", logSources := ["journal://"], profiles := true }).2.agents
        = witnessSt.agents.map (fun b => if b.id = updated.id then updated else b) ∧
      updated.id = 1 ∧
      updated.hostname = "h" ∧
      updated.resourceId = "rid:finch:inst:agent:u0" ∧
      updated.username = "" ∧
      updated.password = "" ∧
      updated.passwordHash = "" ∧
      updated.active = true ∧
      updated.registeredAt = 0 ∧
      updated.labels = [] ∧
      updated.metrics = false ∧
      updated.profiles = true ∧
      updated.metricsTargets = [] ∧
      ∃ eff, parseLogSources
          { hostname := "ignored", logSources := ["journal://"], profiles := true }
        = Except.ok eff ∧ updated.logSources = eff := by
  obtain ⟨u, h1, h2, h3⟩ := C3_update_frame witnessSt _ "rid:finch:inst:agent:u0"
    { hostname := "ignored", logSources := ["journal://"], profiles := true }
    { id := 1, hostname := "h", resourceId := "rid:finch:inst:agent:u0" }
    (by rfl) (by rfl)
  exact ⟨u, h1, h2, h3⟩

/-! ## Claim C7 -/

/-- Counterexample for C7: on a store holding one agent and one subscriber
with an empty buffer and free capacity, the get-by-example and list-all
operations succeed but deliver no event to the subscriber — so it is false
that every one of the five record-store operations publishes an
entity-changed event to all current subscribers. -/
theorem C7_counterexample :
    (modelGetAgentOp witnessSt { hostname := "h" }).1
      = Except.ok { id := 1, hostname := "h", resourceId := "rid:finch:inst:agent:u0" } ∧
    ¬ (∀ ch ∈ (modelGetAgentOp witnessSt { hostname := "h" }).2.subscribers,
        ch.buf ≠ []) ∧
    (modelListAgentsOp witnessSt).1
      = [{ id := 1, hostname := "h", resourceId := "rid:finch:inst:agent:u0" }] ∧
    ¬ (∀ ch ∈ (modelListAgentsOp witnessSt).2.subscribers, ch.buf ≠ []) :=
  ⟨by rfl, by decide, by rfl, by decide⟩

/-- Claim C7 (amended): the three mutating record-store operations — create,
update and delete — publish an entity-changed event to every current
subscriber (non-blocking: a subscriber channel with free capacity receives
the event, a full one drops it), while the two read operations —
get-by-example and list-all — publish nothing and leave the state
untouched. -/
theorem C7_amended_mutations_publish (st : ModelState) (a f : MAgent)
    (ch : EventChan) (t : String) :
    ((¬ ∃ b ∈ st.agents, b.hostname = a.hostname ∨ b.resourceId = a.resourceId) →
      (modelCreateAgent st a).2.subscribers
        = st.subscribers.map (fun c => chanSend c "create")) ∧
    ((modelUpdateAgent st a).subscribers
      = st.subscribers.map (fun c => chanSend c "update")) ∧
    ((modelDeleteAgent st a).subscribers
      = st.subscribers.map (fun c => chanSend c "delete")) ∧
    ((modelGetAgentOp st f).2 = st) ∧
    ((modelListAgentsOp st).2 = st) ∧
    (ch.buf.length < ch.cap → chanSend ch t = { ch with buf := ch.buf ++ [t] }) ∧
    (¬ ch.buf.length < ch.cap → chanSend ch t = ch) := by
  refine ⟨fun hdup => ?_, ?_, ?_, rfl, rfl, fun hroom => ?_, fun hfull => ?_⟩
  · unfold modelCreateAgent
    rw [if_neg (by simpa using hdup)]
    rfl
  · rfl
  · rfl
  · simp [chanSend, hroom]
  · simp [chanSend, hfull]

/-- Witness for the amended C7 on a concrete store with one subscriber. -/
theorem C7_amended_mutations_publish_witness :
    (modelCreateAgent witnessSt { hostname := "h2", resourceId := "rid:r2" }).2.subscribers
      = witnessSt.subscribers.map (fun c => chanSend c "create") ∧
    chanSend ⟨10, []⟩ "create" = ⟨10, ["create"]⟩ ∧
    chanSend ⟨0, []⟩ "create" = ⟨0, []⟩ :=
  ⟨(C7_amended_mutations_publish witnessSt { hostname := "h2", resourceId := "rid:r2" }
      { } ⟨10, []⟩ "create").1 (by decide),
   (C7_amended_mutations_publish witnessSt { } { } ⟨10, []⟩ "create").2.2.2.2.2.1
      (by decide),
   (C7_amended_mutations_publish witnessSt { } { } ⟨0, []⟩ "create").2.2.2.2.2.2
      (by decide)⟩

/-! ## Claim C4 -/

/-- Claim C4: `ValidateDashboardToken` returns the single `InvalidToken`
error — never any partial-success result — for a token signed with a
different secret, advertising a non-HMAC algorithm, past its expiry, with a
wrong issuer, or with a wrong subject; and it accepts any unexpired token
minted by `GetDashboardToken` under the same shared secret. -/
theorem C4_dashboard_token_validation (cfg : Config) (t : JwtToken)
    (now timeout now2 : Int) :
    (t.sig.secret ≠ cfg.secret →
      ValidateDashboardToken cfg t now = Except.error CtrlError.invalidToken) ∧
    (¬ isHmacAlg t.alg →
      ValidateDashboardToken cfg t now = Except.error CtrlError.invalidToken) ∧
    (t.exp < now →
      ValidateDashboardToken cfg t now = Except.error CtrlError.invalidToken) ∧
    (t.iss ≠ "finch" →
      ValidateDashboardToken cfg t now = Except.error CtrlError.invalidToken) ∧
    (t.sub ≠ "dashboard" →
      ValidateDashboardToken cfg t now = Except.error CtrlError.invalidToken) ∧
    (ValidateDashboardToken cfg t now = Except.ok () ∨
      ValidateDashboardToken cfg t now = Except.error CtrlError.invalidToken) ∧
    (now2 ≤ (GetDashboardToken cfg now timeout).expiresAt →
      ValidateDashboardToken cfg (GetDashboardToken cfg now timeout).token now2
        = Except.ok ()) := by
  refine ⟨fun hsec => ?_, fun halg => ?_, fun hexp => ?_, fun hiss => ?_,
    fun hsub => ?_, ?_, fun hnow2 => ?_⟩
  · unfold ValidateDashboardToken
    rcases hv : jwtParseValid cfg.secret t now with _ | _
    · simp
    · exfalso
      have := hv
      simp only [jwtParseValid, Bool.and_eq_true, decide_eq_true_eq] at this
      exact hsec (congrArg JwtSig.secret this.1.2)
  · unfold ValidateDashboardToken
    rcases hv : jwtParseValid cfg.secret t now with _ | _
    · simp
    · exfalso
      simp only [jwtParseValid, Bool.and_eq_true, decide_eq_true_eq] at hv
      exact halg hv.1.1
  · unfold ValidateDashboardToken
    rcases hv : jwtParseValid cfg.secret t now with _ | _
    · simp
    · exfalso
      simp only [jwtParseValid, Bool.and_eq_true, decide_eq_true_eq] at hv
      omega
  · unfold ValidateDashboardToken
    rcases hv : jwtParseValid cfg.secret t now with _ | _
    · simp
    · simp [hiss]
  · unfold ValidateDashboardToken
    rcases hv : jwtParseValid cfg.secret t now with _ | _
    · simp
    · simp [hsub]
  · unfold ValidateDashboardToken
    split
    · right; rfl
    · split
      · right; rfl
      · left; rfl
  · have hexp2 : (GetDashboardToken cfg now timeout).token.exp
        = (GetDashboardToken cfg now timeout).expiresAt := rfl
    unfold ValidateDashboardToken
    rw [if_neg, if_neg]
    · simp [GetDashboardToken, mkToken]
    · simp only [GetDashboardToken, mkToken] at hnow2 ⊢
      simp [jwtParseValid, isHmacAlg, hmacSign, hnow2]

/-- Witness for C4 at concrete tokens: a token signed with another secret, a
token with the `none` algorithm, an expired token, wrong issuer/subject
tokens, and a freshly minted valid token. -/
theorem C4_dashboard_token_validation_witness :
    (ValidateDashboardToken { secret := "s" }
        (mkToken "other" "HS256" "finch" "dashboard" none 0 100) 0
      = Except.error CtrlError.invalidToken) ∧
    (ValidateDashboardToken { secret := "s" }
        (mkToken "s" "none" "finch" "dashboard" none 0 100) 0
      = Except.error CtrlError.invalidToken) ∧
    (ValidateDashboardToken { secret := "s" }
        (mkToken "s" "HS256" "finch" "dashboard" none 0 100) 101
      = Except.error CtrlError.invalidToken) ∧
    (ValidateDashboardToken { secret := "s" }
        (mkToken "s" "HS256" "evil" "dashboard" none 0 100) 0
      = Except.error CtrlError.invalidToken) ∧
    (ValidateDashboardToken { secret := "s" }
        (mkToken "s" "HS256" "finch" "agent" none 0 100) 0
      = Except.error CtrlError.invalidToken) ∧
    (ValidateDashboardToken { secret := "s" }
        (GetDashboardToken { secret := "s" } 0 0).token 1000
      = Except.ok ()) :=
  ⟨((C4_dashboard_token_validation { secret := "s" }
      (mkToken "other" "HS256" "finch" "dashboard" none 0 100) 0 0 0).1 (by decide)),
   ((C4_dashboard_token_validation { secret := "s" }
      (mkToken "s" "none" "finch" "dashboard" none 0 100) 0 0 0).2.1 (by decide)),
   ((C4_dashboard_token_validation { secret := "s" }
      (mkToken "s" "HS256" "finch" "dashboard" none 0 100) 101 0 0).2.2.1 (by decide)),
   ((C4_dashboard_token_validation { secret := "s" }
      (mkToken "s" "HS256" "evil" "dashboard" none 0 100) 0 0 0).2.2.2.1 (by decide)),
   ((C4_dashboard_token_validation { secret := "s" }
      (mkToken "s" "HS256" "finch" "agent" none 0 100) 0 0 0).2.2.2.2.1 (by decide)),
   ((C4_dashboard_token_validation { secret := "s" }
      (mkToken "s" "HS256" "finch" "dashboard" none 0 100) 0 0 1000).2.2.2.2.2.2
        (by decide))⟩

/-! ## Claim C10 -/

/-- Claim C10: `GenerateAgentToken` substitutes the 365-day default only when
the requested lifetime is exactly 0 — a strictly negative lifetime produces a
token whose expiry lies in the past (already expired) — whereas
`GetDashboardToken` substitutes its 1800-second default for every requested
lifetime ≤ 0. -/
theorem C10_token_lifetime_defaults (cfg : Config) (rid : String) (e now t : Int) :
    ((GenerateAgentToken cfg rid 0 now).2 = now + defaultTokenExpiration) ∧
    (defaultTokenExpiration = 365 * 24 * 60 * 60) ∧
    (e ≠ 0 → (GenerateAgentToken cfg rid e now).2 = now + e) ∧
    (e < 0 → (GenerateAgentToken cfg rid e now).2 < now) ∧
    (e < 0 → jwtParseValid cfg.secret (GenerateAgentToken cfg rid e now).1 now
      = false) ∧
    (t ≤ 0 → (GetDashboardToken cfg now t).expiresAt = now + 1800) ∧
    (0 < t → (GetDashboardToken cfg now t).expiresAt = now + t) := by
  refine ⟨?_, rfl, fun he => ?_, fun he => ?_, fun he => ?_, fun ht => ?_,
    fun ht => ?_⟩
  · simp [GenerateAgentToken]
  · simp [GenerateAgentToken, he]
  · simp only [GenerateAgentToken, if_neg (by omega : ¬ e = 0)]
    omega
  · have hlt : (GenerateAgentToken cfg rid e now).1.exp < now := by
      simp only [GenerateAgentToken, mkToken, if_neg (by omega : ¬ e = 0)]
      omega
    simp only [jwtParseValid, Bool.and_eq_false_iff]
    right
    simp only [decide_eq_false_iff_not]
    omega
  · simp [GetDashboardToken, if_pos ht]
  · simp [GetDashboardToken, if_neg (by omega : ¬ t ≤ 0)]

/-- Witness for C10 at concrete lifetimes 0, -5 and 7. -/
theorem C10_token_lifetime_defaults_witness :
    ((GenerateAgentToken { secret := "s" } "rid:x" 0 1000).2
      = 1000 + defaultTokenExpiration) ∧
    ((GenerateAgentToken { secret := "s" } "rid:x" (-5) 1000).2 = 1000 + (-5)) ∧
    ((GenerateAgentToken { secret := "s" } "rid:x" (-5) 1000).2 < 1000) ∧
    (jwtParseValid "s" (GenerateAgentToken { secret := "s" } "rid:x" (-5) 1000).1 1000
      = false) ∧
    ((GetDashboardToken { secret := "s" } 1000 (-3)).expiresAt = 1000 + 1800) ∧
    ((GetDashboardToken { secret := "s" } 1000 7).expiresAt = 1000 + 7) :=
  ⟨(C10_token_lifetime_defaults { secret := "s" } "rid:x" 0 1000 0).1,
   (C10_token_lifetime_defaults { secret := "s" } "rid:x" (-5) 1000 0).2.2.1
      (by decide),
   (C10_token_lifetime_defaults { secret := "s" } "rid:x" (-5) 1000 0).2.2.2.1
      (by decide),
   (C10_token_lifetime_defaults { secret := "s" } "rid:x" (-5) 1000 0).2.2.2.2.1
      (by decide),
   (C10_token_lifetime_defaults { secret := "s" } "rid:x" 0 1000 (-3)).2.2.2.2.2.1
      (by decide),
   (C10_token_lifetime_defaults { secret := "s" } "rid:x" 0 1000 7).2.2.2.2.2.2
      (by decide)⟩

/-! ## Claim C5 -/

/-- Claim C5: when every one of the 25 advisory-lock attempts (at a fixed
100ms interval) fails, credential-file regeneration fails with the
lock-timeout error and the previously published file is byte-for-byte
unchanged; and the target only ever holds either its previous content or the
complete newly rendered content (atomic rename of the fully written temporary
file), never anything partial. -/
theorem C5_lock_timeout_preserves_file (st : ModelState) (lockResults : List Bool)
    (fs : FsState) :
    (lockAttempts = 25 ∧ lockRetryIntervalMs = 100) ∧
    ((∀ b ∈ lockResults.take lockAttempts, b = false) →
      generateCredentialsFile st lockResults fs
        = (Except.error "failed to acquire file lock", fs)) ∧
    ((generateCredentialsFile st lockResults fs).2.lokiUsersFile = fs.lokiUsersFile ∨
      (generateCredentialsFile st lockResults fs).2.lokiUsersFile
        = some (lokiUsersRender (modelListAgents st))) ∧
    (∀ r fs', generateCredentialsFile st lockResults fs = (Except.error r, fs') →
      fs' = fs) := by
  refine ⟨⟨rfl, rfl⟩, fun hall => ?_, ?_, fun r fs' h => ?_⟩
  · unfold generateCredentialsFile
    rw [if_neg]
    simp only [List.any_eq_true, id_eq, not_exists, not_and]
    intro b hb
    simp [hall b hb]
  · rcases hl : (lockResults.take lockAttempts).any id with _ | _
    · left; simp [generateCredentialsFile, hl]
    · right; simp [generateCredentialsFile, hl]
  · simp only [generateCredentialsFile] at h
    rcases hl : (lockResults.take lockAttempts).any id with _ | _ <;> rw [hl] at h
    · simp only [Bool.false_eq_true, if_false] at h
      exact (congrArg Prod.snd h).symm
    · simp only [if_true] at h
      exact absurd (congrArg Prod.fst h) (by simp)

/-- Witness for C5: with 25 failed lock attempts the previously published
file survives unchanged. -/
theorem C5_lock_timeout_preserves_file_witness :
    generateCredentialsFile witnessSt (List.replicate 30 false) ⟨some "old"⟩
      = (Except.error "failed to acquire file lock", ⟨some "old"⟩) ∧
    (∀ r fs', generateCredentialsFile witnessSt (List.replicate 30 false) ⟨some "old"⟩
      = (Except.error r, fs') → fs' = ⟨some "old"⟩) :=
  ⟨(C5_lock_timeout_preserves_file witnessSt (List.replicate 30 false)
      ⟨some "old"⟩).2.1 (by decide),
   (C5_lock_timeout_preserves_file witnessSt (List.replicate 30 false)
      ⟨some "old"⟩).2.2.2⟩

/-! ## Lemmas: URL parsing round-trip -/

theorem toListApp (a b : String) : (a ++ b).toList = a.toList ++ b.toList :=
  String.data_append a b

theorem splitFirstOpt_not_mem (sep : Char) :
    ∀ l : List Char, sep ∉ (splitFirstOpt sep l).1
  | [] => by simp [splitFirstOpt]
  | c :: rest => by
      by_cases h : c = sep
      · simp [splitFirstOpt, h]
      · simp only [splitFirstOpt, if_neg h]
        intro hmem
        rcases List.mem_cons.mp hmem with h1 | h1
        · exact h h1.symm
        · exact splitFirstOpt_not_mem sep rest h1

theorem splitFirstOpt_decomp_none (sep : Char) :
    ∀ l : List Char, (splitFirstOpt sep l).2 = none → (splitFirstOpt sep l).1 = l
  | [] => by simp [splitFirstOpt]
  | c :: rest => by
      by_cases h : c = sep
      · simp [splitFirstOpt, h]
      · simp only [splitFirstOpt, if_neg h]
        intro h2
        rw [splitFirstOpt_decomp_none sep rest h2]

theorem splitFirstOpt_decomp_some (sep : Char) :
    ∀ (l b : List Char), (splitFirstOpt sep l).2 = some b →
      l = (splitFirstOpt sep l).1 ++ sep :: b
  | [], b => by simp [splitFirstOpt]
  | c :: rest, b => by
      by_cases h : c = sep
      · subst h
        intro h2
        simp only [splitFirstOpt, if_pos rfl] at h2 ⊢
        simp [splitFirstOpt] at h2
        simp [splitFirstOpt, h2]
      · simp only [splitFirstOpt, if_neg h]
        intro h2
        have := splitFirstOpt_decomp_some sep rest b h2
        simpa using this

theorem splitFirstOpt_no_sep (sep : Char) :
    ∀ l : List Char, sep ∉ l → splitFirstOpt sep l = (l, none)
  | [], _ => rfl
  | c :: rest, h => by
      have hc : ¬ c = sep := fun he => h (he ▸ List.mem_cons_self c rest)
      simp only [splitFirstOpt, if_neg hc]
      rw [splitFirstOpt_no_sep sep rest (fun hm => h (List.mem_cons_of_mem _ hm))]

theorem splitFirstOpt_append (sep : Char) :
    ∀ (a b : List Char), sep ∉ a → splitFirstOpt sep (a ++ sep :: b) = (a, some b)
  | [], b, _ => by simp [splitFirstOpt]
  | c :: rest, b, h => by
      have hc : ¬ c = sep := fun he => h (he ▸ List.mem_cons_self c rest)
      have ih := splitFirstOpt_append sep rest b (fun hm => h (List.mem_cons_of_mem _ hm))
      simp [splitFirstOpt, if_neg hc, ih]

theorem takeWhile_append_all (p : Char → Bool) :
    ∀ (a b : List Char), (∀ c ∈ a, p c) → (a ++ b).takeWhile p = a ++ b.takeWhile p
  | [], b, _ => by simp
  | x :: xs, b, h => by
      have ih := takeWhile_append_all p xs b (fun c hc => h c (List.mem_cons_of_mem _ hc))
      simp [List.takeWhile_cons, h x (List.mem_cons_self x xs), ih]

theorem dropWhile_append_all (p : Char → Bool) :
    ∀ (a b : List Char), (∀ c ∈ a, p c) → (a ++ b).dropWhile p = b.dropWhile p
  | [], b, _ => by simp
  | x :: xs, b, h => by
      have ih := dropWhile_append_all p xs b (fun c hc => h c (List.mem_cons_of_mem _ hc))
      simp [List.dropWhile_cons, h x (List.mem_cons_self x xs), ih]

/-- Well-formedness of a parsed authority-form http(s) URL: exactly the
properties that `goUrlParse` guarantees of its output and that make
`urlString` parse back to the same record. -/
structure URLShape (v : GoURL) : Prop where
  scheme_http : v.scheme = "http" ∨ v.scheme = "https"
  opq_empty : v.opq = ""
  omit_false : v.omitHost = false
  host_ne : v.host ≠ ""
  host_ok : ∀ c ∈ v.host.toList,
    ¬ c = '/' ∧ ¬ c = '?' ∧ ¬ c = '#' ∧ ¬ c = '@' ∧ isCtl c = false
  path_ok : v.path.toList = [] ∨ ∃ pr, v.path.toList = '/' :: pr
  path_chars : ∀ c ∈ v.path.toList, ¬ c = '?' ∧ ¬ c = '#' ∧ isCtl c = false
  query_ok : ∀ c ∈ v.query.toList, ¬ c = '#' ∧ isCtl c = false
  frag_ok : ∀ c ∈ v.fragment.toList, isCtl c = false

theorem getScheme_concrete (s : String) (hs : s = "http" ∨ s = "https")
    (rest : List Char) :
    getScheme (s.toList ++ ':' :: rest) = SchemeRes.found s.toList rest := by
  rcases hs with h | h <;> subst h <;> rfl

theorem toLower_concrete (s : String) (hs : s = "http" ∨ s = "https") :
    s.toList.map toLowerChar = s.toList := by
  rcases hs with h | h <;> subst h <;> rfl

theorem contains_at_false (l : List Char) (h : '@' ∉ l) : l.contains '@' = false := by
  rw [List.contains_eq_any_beq]
  simp only [List.any_eq_false, beq_iff_eq]
  intro c hc he
  exact h (he ▸ hc)

theorem scheme_chars_not_ctl (s : String) (hs : s = "http" ∨ s = "https") :
    ∀ c ∈ s.toList, isCtl c = false := by
  rcases hs with h | h <;> subst h <;> decide

theorem str_empty_of_toList (s : String) (h : s.toList = []) : s = "" := by
  cases s with
  | mk d => simp [String.toList] at h; simp [h]

theorem shape_reparse (v : GoURL) (hs : URLShape v) :
    goUrlParse (urlString v) = some v := by
  obtain ⟨sch, opq, host, path, query, frag, omitH⟩ := v
  obtain ⟨hsch, hopq, homit, hhost, hhostok, hpath, hpathchars, hquery, hfrag⟩ := hs
  simp only at hsch hopq homit hhost hhostok hpath hpathchars hquery hfrag
  subst hopq
  subst homit
  have hsne : sch ≠ "" := by rcases hsch with h | h <;> simp [h]
  set v : GoURL := ⟨sch, "", host, path, query, frag, false⟩ with hv
  set q' : List Char := if query ≠ "" then '?' :: query.toList else [] with hq'
  set f' : List Char := if frag ≠ "" then '#' :: frag.toList else [] with hf'
  have hcond2 : ¬ (path ≠ "" ∧ ¬ path.toList.take 1 = ['/'] ∧ host ≠ "") := by
    rcases hpath with h | ⟨pr, h⟩
    · rintro ⟨h1, _, _⟩
      exact h1 (str_empty_of_toList _ h)
    · rintro ⟨_, h2, _⟩
      exact h2 (by rw [h]; rfl)
  have hurl : (urlString v).toList
      = sch.toList ++ ':' :: '/' :: '/' ::
        (host.toList ++ path.toList ++ q' ++ f') := by
    show ((if sch ≠ "" then sch ++ ":" else "") ++ _ ++ _ ++ _).toList = _
    rw [if_pos hsne]
    simp only [hv]
    rw [if_neg (by simp), if_pos (⟨Or.inl hsne, by simp, Or.inl hhost⟩ :
        (sch ≠ "" ∨ host ≠ "") ∧ ¬ (false = true ∧ host = "") ∧
          (host ≠ "" ∨ path ≠ "")), if_neg hcond2]
    by_cases hq : query = "" <;> by_cases hf : frag = "" <;>
      simp [toListApp, hq, hf, hq', hf', List.append_assoc, String.toList]
  -- character-class facts
  have hq'chars : ∀ c ∈ q', ¬ c = '#' ∧ isCtl c = false := by
    rw [hq']; split
    · intro c hc
      rcases List.mem_cons.mp hc with h | h
      · subst h; exact ⟨by decide, by decide⟩
      · exact hquery c h
    · simp
  have hf'chars : ∀ c ∈ f', isCtl c = false := by
    rw [hf']; split
    · intro c hc
      rcases List.mem_cons.mp hc with h | h
      · subst h; decide
      · exact hfrag c h
    · simp
  have hctl : ((urlString v).toList.any isCtl) = false := by
    rw [hurl]
    simp only [List.any_eq_false]
    intro c hc
    simp only [List.mem_append, List.mem_cons] at hc
    rw [Bool.not_eq_true]
    rcases hc with h | h | h | h | (((h | h) | h) | h)
    · exact scheme_chars_not_ctl sch hsch c h
    · subst h; decide
    · subst h; decide
    · subst h; decide
    · exact (hhostok c h).2.2.2.2
    · exact (hpathchars c h).2.2
    · exact (hq'chars c h).2
    · exact hf'chars c h
  have hBnotq : '?' ∉ ('/' :: '/' :: (host.toList ++ path.toList)) := by
    intro hm
    rcases List.mem_cons.mp hm with h | hm
    · exact absurd h (by decide)
    rcases List.mem_cons.mp hm with h | hm
    · exact absurd h (by decide)
    rcases List.mem_append.mp hm with h | h
    · exact (hhostok _ h).2.1 rfl
    · exact (hpathchars _ h).1 rfl
  have hAnotf : '#' ∉ ('/' :: '/' :: (host.toList ++ path.toList ++ q')) := by
    intro hm
    rcases List.mem_cons.mp hm with h | hm
    · exact absurd h (by decide)
    rcases List.mem_cons.mp hm with h | hm
    · exact absurd h (by decide)
    rcases List.mem_append.mp hm with hm | h
    · rcases List.mem_append.mp hm with h | h
      · exact (hhostok _ h).2.2.1 rfl
      · exact (hpathchars _ h).2.1 rfl
    · exact (hq'chars _ h).1 rfl
  have hsplitf : splitFirstOpt '#' ('/' :: '/' :: (host.toList ++ path.toList ++ q' ++ f'))
      = ('/' :: '/' :: (host.toList ++ path.toList ++ q'),
         if frag = "" then none else some frag.toList) := by
    by_cases hf : frag = ""
    · rw [if_pos hf]
      have hfe : f' = [] := by rw [hf']; simp [hf]
      rw [hfe, List.append_nil]
      exact splitFirstOpt_no_sep '#' _ hAnotf
    · rw [if_neg hf]
      have hfe : f' = '#' :: frag.toList := by rw [hf']; simp [hf]
      rw [hfe]
      exact splitFirstOpt_append '#' ('/' :: '/' :: (host.toList ++ path.toList ++ q'))
        frag.toList hAnotf
  have hsplitq : splitFirstOpt '?' ('/' :: '/' :: (host.toList ++ path.toList ++ q'))
      = ('/' :: '/' :: (host.toList ++ path.toList),
         if query = "" then none else some query.toList) := by
    by_cases hq : query = ""
    · rw [if_pos hq]
      have hqe : q' = [] := by rw [hq']; simp [hq]
      rw [hqe, List.append_nil]
      exact splitFirstOpt_no_sep '?' _ hBnotq
    · rw [if_neg hq]
      have hqe : q' = '?' :: query.toList := by rw [hq']; simp [hq]
      rw [hqe]
      exact splitFirstOpt_append '?' ('/' :: '/' :: (host.toList ++ path.toList))
        query.toList hBnotq
  have htake : takeUntilSlash (host.toList ++ path.toList) = host.toList := by
    unfold takeUntilSlash
    rw [takeWhile_append_all _ _ _ (fun c hc => by simp [(hhostok c hc).1])]
    rcases hpath with h | ⟨pr, h⟩ <;> rw [h] <;> simp
  have hdrop : dropUntilSlash (host.toList ++ path.toList) = path.toList := by
    unfold dropUntilSlash
    rw [dropWhile_append_all _ _ _ (fun c hc => by simp [(hhostok c hc).1])]
    rcases hpath with h | ⟨pr, h⟩ <;> rw [h] <;> simp
  have hauth : authorityHost host.toList = host.toList := by
    have hc : host.toList.contains '@' = false :=
      contains_at_false _ (fun hm => (hhostok _ hm).2.2.2.1 rfl)
    unfold authorityHost
    rw [if_neg (by rw [hc]; simp)]
  have hctlL : (sch.toList ++ ':' :: '/' :: '/' ::
      (host.toList ++ path.toList ++ q' ++ f')).any isCtl = false := hurl ▸ hctl
  have hmk : String.mk sch.toList = sch := rfl
  have hqf : String.mk ((if query = "" then none else some query.toList).getD []) = query := by
    by_cases hq : query = ""
    · subst hq; rfl
    · rw [if_neg hq]; rfl
  have hff : String.mk ((if frag = "" then none else some frag.toList).getD []) = frag := by
    by_cases hf : frag = ""
    · subst hf; rfl
    · rw [if_neg hf]; rfl
  simp only [goUrlParse, hurl]
  rw [if_neg (by rw [hctlL]; simp)]
  rw [getScheme_concrete sch hsch]
  simp only [toLower_concrete sch hsch, hmk]
  rw [hsplitf, hsplitq]
  simp only []
  rw [if_neg (fun h => h rfl)]
  rw [if_pos ⟨rfl, Or.inl hsne⟩]
  simp only [List.drop_succ_cons, List.drop_zero]
  rw [htake, hdrop, hauth, hqf, hff, hv]
  rfl

theorem dropWhile_nil_or (p : Char → Bool) :
    ∀ l : List Char, l.dropWhile p = [] ∨
      ∃ x xs, l.dropWhile p = x :: xs ∧ p x = false
  | [] => Or.inl rfl
  | c :: rest => by
      rcases hp : p c with _ | _
      · exact Or.inr ⟨c, rest, by simp [List.dropWhile_cons, hp], hp⟩
      · rcases dropWhile_nil_or p rest with h | ⟨x, xs, h1, h2⟩
        · exact Or.inl (by simp [List.dropWhile_cons, hp, h])
        · exact Or.inr ⟨x, xs, by simp [List.dropWhile_cons, hp, h1], h2⟩

theorem splitFirstOpt_fst_subset (sep : Char) (l : List Char) :
    (splitFirstOpt sep l).1 ⊆ l := by
  rcases hsp : (splitFirstOpt sep l).2 with _ | b
  · rw [splitFirstOpt_decomp_none sep l hsp]
    exact fun c hc => hc
  · intro c hc
    rw [splitFirstOpt_decomp_some sep l b hsp]
    exact List.mem_append.mpr (Or.inl hc)

theorem splitFirstOpt_snd_subset (sep : Char) (l b : List Char)
    (h : (splitFirstOpt sep l).2 = some b) : b ⊆ l := by
  intro c hc
  rw [splitFirstOpt_decomp_some sep l b h]
  exact List.mem_append.mpr (Or.inr (List.mem_cons_of_mem _ hc))

theorem authorityHost_subset (a : List Char) : authorityHost a ⊆ a := by
  unfold authorityHost
  split
  · intro c hc
    rw [List.mem_reverse] at hc
    exact List.mem_reverse.mp (splitFirstOpt_fst_subset '@' a.reverse hc)
  · exact fun c hc => hc

theorem authorityHost_no_at (a : List Char) : '@' ∉ authorityHost a := by
  unfold authorityHost
  split
  · intro hm
    rw [List.mem_reverse] at hm
    exact splitFirstOpt_not_mem '@' a.reverse hm
  · intro hm
    next h => exact h (by simpa using hm)

theorem getSchemeAux_suffix :
    ∀ (acc l s r : List Char), getSchemeAux acc l = SchemeRes.found s r →
      ∃ pre, l = pre ++ ':' :: r := by
  intro acc l
  induction l generalizing acc with
  | nil => intro s r h; simp [getSchemeAux] at h
  | cons c rest ih =>
      intro s r h
      unfold getSchemeAux at h
      by_cases hc : c = ':'
      · rw [if_pos hc] at h
        by_cases ha : acc = []
        · rw [if_pos ha] at h; cases h
        · rw [if_neg ha] at h
          cases h
          exact ⟨[], by simp [hc]⟩
      · rw [if_neg hc] at h
        split at h
        · obtain ⟨pre, hpre⟩ := ih _ _ _ h
          exact ⟨c :: pre, by simp [hpre]⟩
        · split at h
          · by_cases ha : acc = []
            · rw [if_pos ha] at h; cases h
            · rw [if_neg ha] at h
              obtain ⟨pre, hpre⟩ := ih _ _ _ h
              exact ⟨c :: pre, by simp [hpre]⟩
          · cases h

theorem parse_shape (s : String) (v : GoURL) (h : goUrlParse s = some v)
    (hsch : v.scheme = "http" ∨ v.scheme = "https") (hhost : v.host ≠ "") :
    URLShape v := by
  simp only [goUrlParse] at h
  rcases hctl : s.toList.any isCtl with _ | _
  case true =>
    rw [hctl] at h
    simp at h
  rw [hctl] at h
  simp only [Bool.false_eq_true, if_false] at h
  have hctl2 : ∀ c ∈ s.toList, isCtl c = false := by
    intro c hc
    have := List.any_eq_false.mp hctl c hc
    simpa using this
  rcases hg : getScheme s.toList with _ | _ | ⟨sch, r⟩
  case err =>
    rw [hg] at h
    simp at h
  case noScheme =>
    rw [hg] at h
    simp only [] at h
    have hveq : v.scheme = "" := by
      split at h <;> (try split at h) <;> (try split at h) <;>
        first
          | exact Option.noConfusion h
          | (injection h with h2; rw [← h2])
    rcases hsch with hx | hx <;> rw [hveq] at hx <;> simp at hx
  case found =>
    rw [hg] at h
    simp only [] at h
    rcases hsp1 : splitFirstOpt '#' r with ⟨rest0, fragO⟩
    rw [hsp1] at h
    simp only [] at h
    rcases hsp2 : splitFirstOpt '?' rest0 with ⟨rest1, queryO⟩
    rw [hsp2] at h
    simp only [] at h
    have hg2 : getSchemeAux [] s.toList = SchemeRes.found sch r := hg
    have hsub_r : r ⊆ s.toList := by
      obtain ⟨pre, hpre⟩ := getSchemeAux_suffix [] s.toList sch r hg2
      intro c hc
      rw [hpre]
      exact List.mem_append.mpr (Or.inr (List.mem_cons_of_mem _ hc))
    have hnq : '?' ∉ rest1 := by
      rw [show rest1 = (splitFirstOpt '?' rest0).1 from by rw [hsp2]]
      exact splitFirstOpt_not_mem '?' rest0
    have hnf : '#' ∉ rest0 := by
      rw [show rest0 = (splitFirstOpt '#' r).1 from by rw [hsp1]]
      exact splitFirstOpt_not_mem '#' r
    have hsub10 : rest1 ⊆ rest0 := by
      rw [show rest1 = (splitFirstOpt '?' rest0).1 from by rw [hsp2]]
      exact splitFirstOpt_fst_subset '?' rest0
    have hsub0r : rest0 ⊆ r := by
      rw [show rest0 = (splitFirstOpt '#' r).1 from by rw [hsp1]]
      exact splitFirstOpt_fst_subset '#' r
    have hctlr : ∀ c ∈ rest0, isCtl c = false := fun c hc =>
      hctl2 c (hsub_r (hsub0r hc))
    split at h
    · -- no authority form: host is "" in every leaf
      split at h
      · injection h with h2
        rw [← h2] at hhost
        exact absurd rfl hhost
      · split at h
        · exact Option.noConfusion h
        · injection h with h2
          rw [← h2] at hhost
          exact absurd rfl hhost
    · split at h
      · -- authority branch
        injection h with h2
        subst h2
        have hsubA : takeUntilSlash (rest1.drop 2) ⊆ rest1 := fun c hc =>
          List.drop_subset 2 rest1
            ((List.takeWhile_prefix _).sublist.subset hc)
        have hsubD : dropUntilSlash (rest1.drop 2) ⊆ rest1 := fun c hc =>
          List.drop_subset 2 rest1
            ((List.dropWhile_suffix _).sublist.subset hc)
        have hsubH : authorityHost (takeUntilSlash (rest1.drop 2)) ⊆ rest1 :=
          fun c hc => hsubA (authorityHost_subset _ hc)
        constructor
        · exact hsch
        · rfl
        · rfl
        · exact hhost
        · intro c hc
          refine ⟨?_, ?_, ?_, ?_, ?_⟩
          · have := List.mem_takeWhile_imp (authorityHost_subset _ hc)
            simpa using this
          · exact fun he => hnq (he ▸ hsubH hc)
          · exact fun he => hnf (he ▸ hsub10 (hsubH hc))
          · exact fun he => authorityHost_no_at _ (he ▸ hc)
          · exact hctlr _ (hsub10 (hsubH hc))
        · rcases dropWhile_nil_or (fun c => ¬ c = '/') (rest1.drop 2) with hd | ⟨x, xs, hd, hx⟩
          · exact Or.inl hd
          · refine Or.inr ⟨xs, ?_⟩
            have : x = '/' := by simpa using hx
            rw [← this]
            exact hd
        · intro c hc
          refine ⟨?_, ?_, ?_⟩
          · exact fun he => hnq (he ▸ hsubD hc)
          · exact fun he => hnf (he ▸ hsub10 (hsubD hc))
          · exact hctlr _ (hsub10 (hsubD hc))
        · intro c hc
          rcases hq : queryO with _ | qb
          · rw [hq] at hc
            simp at hc
          · rw [hq] at hc
            simp only [Option.getD_some] at hc
            have hqsub : qb ⊆ rest0 := splitFirstOpt_snd_subset '?' rest0 qb
              (by rw [hsp2, hq])
            exact ⟨fun he => hnf (he ▸ hqsub hc), hctlr _ (hqsub hc)⟩
        · intro c hc
          rcases hf : fragO with _ | fb
          · rw [hf] at hc
            simp at hc
          · rw [hf] at hc
            simp only [Option.getD_some] at hc
            have hfsub : fb ⊆ r := splitFirstOpt_snd_subset '#' r fb
              (by rw [hsp1, hf])
            exact hctl2 _ (hsub_r (hfsub hc))
      · injection h with h2
        rw [← h2] at hhost
        exact absurd rfl hhost

/-! ## Claim C6 -/

theorem validMetricsTarget_reparse (s t : String) (h : validMetricsTarget s = some t) :
    ∃ w, goUrlParse s = some w ∧ t = urlString w ∧ goUrlParse t = some w ∧
      (w.scheme = "http" ∨ w.scheme = "https") ∧ w.host ≠ "" := by
  unfold validMetricsTarget at h
  rcases hp : goUrlParse s with _ | w <;> rw [hp] at h
  · cases h
  · simp only [] at h
    split at h
    next hc =>
      injection h with h2
      refine ⟨w, rfl, h2.symm, ?_, hc.1, hc.2⟩
      rw [← h2]
      exact shape_reparse w (parse_shape s w hp hc.1 hc.2)
    next hc => cases h

theorem filterMap_length_of_isSome {α β : Type} (f : α → Option β) :
    ∀ l : List α, (∀ x ∈ l, (f x).isSome) → (l.filterMap f).length = l.length
  | [], _ => rfl
  | x :: rest, h => by
      rcases hfx : f x with _ | y
      · exact absurd (hfx ▸ h x (List.mem_cons_self x rest)) (by simp)
      · simp only [List.filterMap_cons, hfx, List.length_cons]
        rw [filterMap_length_of_isSome f rest
          (fun z hz => h z (List.mem_cons_of_mem _ hz))]

theorem composed_none_of_invalid (s : String) (hv : validMetricsTarget s = none) :
    (match goUrlParse s with
      | none => none
      | some w =>
          if (w.scheme = "http" ∨ w.scheme = "https") ∧ w.host ≠ "" then
            some (⟨w.host, w.path⟩ : MetricsTargetEntry)
          else none) = none := by
  unfold validMetricsTarget at hv
  rcases hp : goUrlParse s with _ | w
  · rfl
  · simp only []
    rw [hp] at hv
    simp only [] at hv
    split at hv
    · cases hv
    · rw [if_neg (by assumption)]

/-- One scrape entry per input target that passes URI validation, none for
the rest: the composition of `__parseMetricsTargets` with the re-parse done
by `generateAlloyConfig`. -/
theorem metricsTargets_compose : ∀ inputs : List String,
    (inputs.filterMap validMetricsTarget).filterMap alloyEntry
      = inputs.filterMap (fun s =>
          match goUrlParse s with
          | none => none
          | some w =>
              if (w.scheme = "http" ∨ w.scheme = "https") ∧ w.host ≠ "" then
                some (⟨w.host, w.path⟩ : MetricsTargetEntry)
              else none)
  | [] => rfl
  | s :: rest => by
      have ih := metricsTargets_compose rest
      rcases hv : validMetricsTarget s with _ | t
      · simp only [List.filterMap_cons, hv, composed_none_of_invalid s hv]
        exact ih
      · obtain ⟨w, hpw, ht, hrt, hcond⟩ := validMetricsTarget_reparse s t hv
        have hentry : alloyEntry t = some ⟨w.host, w.path⟩ := by
          unfold alloyEntry
          rw [hrt]
        simp only [List.filterMap_cons, hv, hpw, hentry]
        rw [if_pos hcond]
        simp only [List.filterMap_cons, hentry]
        rw [ih]



/-- Claim C6: for an update that sets the metrics flag and supplies metrics
targets, the synthesized configuration has its metrics section enabled and
contains exactly one scrape entry per input target that passed URI validation
(absolute http/https URI with non-empty host) and none for targets that
failed it; invalid metrics targets are dropped silently and never make the
update fail. -/
theorem C6_metrics_scrape_blocks (cfg : Config) (st st' : ModelState)
    (rid : String) (data : CAgent) (a u : MAgent) (now : Int)
    (_hget : modelGetAgent st { resourceId := rid } = Except.ok a)
    (_hupd : UpdateAgent st rid data = (Except.ok (), st'))
    (hu : marshalUpdateAgent a data = Except.ok u)
    (hmet : data.metrics = true) :
    u.metrics = true ∧
    (generateAlloyConfig cfg u now).metrics = true ∧
    u.metricsTargets = parseMetricsTargets data ∧
    (generateAlloyConfig cfg u now).metricsTargets
      = data.metricsTargets.filterMap (fun s =>
          match goUrlParse s with
          | none => none
          | some w =>
              if (w.scheme = "http" ∨ w.scheme = "https") ∧ w.host ≠ "" then
                some (⟨w.host, w.path⟩ : MetricsTargetEntry)
              else none) ∧
    (generateAlloyConfig cfg u now).metricsTargets.length
      = (parseMetricsTargets data).length ∧
    (∀ mt', (UpdateAgent st rid { data with metricsTargets := mt' }).1
        = (UpdateAgent st rid data).1) := by
  unfold marshalUpdateAgent at hu
  rcases hpl : parseLogSources data with e | eff <;> rw [hpl] at hu
  · cases hu
  · injection hu with hu2
    have humet : u.metrics = true := by rw [← hu2]; exact hmet
    have humt : u.metricsTargets = parseMetricsTargets data := by rw [← hu2]
    have hcfgmt : (generateAlloyConfig cfg u now).metricsTargets
        = u.metricsTargets.filterMap alloyEntry := rfl
    refine ⟨humet, humet, humt, ?_, ?_, ?_⟩
    · rw [hcfgmt, humt]
      exact metricsTargets_compose data.metricsTargets
    · rw [hcfgmt, humt]
      apply filterMap_length_of_isSome
      intro t ht
      obtain ⟨s, hsmem, hs⟩ := List.mem_filterMap.mp ht
      obtain ⟨w, hpw, -, hrt, -⟩ := validMetricsTarget_reparse s t hs
      simp [alloyEntry, hrt]
    · intro mt'
      unfold UpdateAgent
      rcases hg2 : modelGetAgent st { resourceId := rid } with e2 | b
      · rfl
      · simp only []
        unfold marshalUpdateAgent
        have hple : parseLogSources { data with metricsTargets := mt' }
            = parseLogSources data := rfl
        rw [hple, hpl]

/-- Concrete update input for the C6 witness: metrics enabled, one valid
and two invalid metrics targets. -/
def c6Data : CAgent :=
  { hostname := "ignored", logSources := ["journal://"], metrics := true,
    metricsTargets := ["http://node.example.com:9100/metrics", "ftp://bad",
      "http:///nohost"] }

/-- Witness for C6: of three supplied targets exactly the valid one produces
a scrape entry. -/
theorem C6_metrics_scrape_blocks_witness :
    ∃ u st',
      UpdateAgent witnessSt "rid:finch:inst:agent:u0" c6Data = (Except.ok (), st') ∧
      marshalUpdateAgent
          { id := 1, hostname := "h", resourceId := "rid:finch:inst:agent:u0" }
          c6Data
        = Except.ok u ∧
      u.metrics = true ∧
      (generateAlloyConfig witnessCfg u 0).metricsTargets.length
        = (parseMetricsTargets c6Data).length ∧
      parseMetricsTargets c6Data = ["http://node.example.com:9100/metrics"] ∧
      (generateAlloyConfig witnessCfg u 0).metricsTargets
        = [⟨"node.example.com:9100", "/metrics"⟩] := by
  refine ⟨_, _, rfl, rfl, ?_, ?_, ?_, ?_⟩
  · exact (C6_metrics_scrape_blocks witnessCfg witnessSt _
      "rid:finch:inst:agent:u0" c6Data _ _ 0 rfl rfl rfl rfl).1
  · exact (C6_metrics_scrape_blocks witnessCfg witnessSt _
      "rid:finch:inst:agent:u0" c6Data _ _ 0 rfl rfl rfl rfl).2.2.2.2.1
  · rfl
  · rfl

end Finch
